import Mathlib

/-!
Shallow embedding of the calibre-comicvine plugin's access layer
(`client.py`: `TokenBucket`, `retry_on_comicvine_error`, `cache_comicvine`,
`PyComicvineWrapper`) and of the ranking functions exercised by
`test_ranking.py`, together with proofs of the specified properties.

Conventions: wall-clock times and intervals are rationals, persisted token
counts are integers (the JSON store holds Python ints), and Python's
exception flow is modelled with explicit result values.
-/

namespace Comicvine

/-! ## TokenBucket (client.py, lines 18-56)

The persisted state is the JSONConfig record `{tokens, update}`.  The
`tokens` property lazily mints tokens from elapsed wall-clock time; the
`consume` method spins until a token is available and then decrements the
persisted count by one.  `PREFS` supplies `request_batch_size` (`batch`)
and `request_interval` (`interval`). -/

structure BucketState where
  tokens : Int
  update : ℚ
  deriving DecidableEq

/-- Python's `int()` conversion: truncation toward zero. -/
def pyInt (q : ℚ) : Int :=
  if q < 0 then -Int.floor (-q) else Int.floor q

/-- The `TokenBucket.tokens` property (client.py lines 40-56): if the stored
count is below `request_batch_size`, convert the time elapsed since the last
update into whole tokens at rate `1/request_interval`, add them capped at the
batch size, and persist the new count and timestamp only when tokens were
actually minted. -/
def tokensRead (batch : Int) (interval : ℚ) (s : BucketState) (now : ℚ) : BucketState :=
  if s.tokens < batch then
    let elapsed := now - s.update
    if 0 < elapsed then
      let new_tokens := pyInt (elapsed * (1 / interval))
      if new_tokens ≠ 0 then
        if new_tokens + s.tokens < batch then
          { tokens := s.tokens + new_tokens, update := now }
        else
          { tokens := batch, update := now }
      else s
    else s
  else s

/-- The delay computed inside `TokenBucket.consume`'s waiting loop
(client.py lines 32-35): `interval - time_since_last_request` when the
interval has not yet fully elapsed, otherwise `interval`. -/
def consumeDelay (interval time_since_last_request : ℚ) : ℚ :=
  if interval > time_since_last_request then interval - time_since_last_request
  else interval

/-- The committing step of `TokenBucket.consume` (client.py lines 31-38): the
final `self.tokens` read (which may mint tokens) followed by the decrement of
the persisted count by one. -/
def consumeCommit (batch : Int) (interval : ℚ) (s : BucketState) (now : ℚ) : BucketState :=
  let after := tokensRead batch interval s now
  { after with tokens := after.tokens - 1 }

/-- One observable transition of the persisted bucket state: either a read of
the `tokens` property (which may mint tokens) at some wall-clock time, or a
successful `consume()` whose final read observed at least one token. -/
inductive BucketStep (batch : Int) (interval : ℚ) : BucketState → BucketState → Prop
  | read (s : BucketState) (now : ℚ) :
      BucketStep batch interval s (tokensRead batch interval s now)
  | consume (s : BucketState) (now : ℚ)
      (h : 1 ≤ (tokensRead batch interval s now).tokens) :
      BucketStep batch interval s (consumeCommit batch interval s now)

/-! ## Retry wrapper (client.py, lines 62-113)

`retry_function` loops `retry` over `range(1, retries + 1)`; each iteration
consumes one token, invokes the wrapped operation, and dispatches on the
raised exception: `RateLimitExceededError` re-raises at once, `HTTPError`
re-raises at once iff its code is 420, and any other exception re-raises on
the final attempt or sleeps a jittered delay and continues.  If the loop
body never runs the Python function falls through and returns `None`. -/

/-- The exceptions distinguished by `retry_function`'s `except` clauses. -/
inductive PyExc where
  | rateLimitExceeded (msg : String)
  | httpError (code : Nat) (msg : String)
  | other (msg : String)
  deriving DecidableEq

/-- One invocation of the wrapped operation either returns a value or raises. -/
inductive Outcome (α : Type) where
  | ok (v : α)
  | raise (e : PyExc)
  deriving DecidableEq

/-- How a call through `retry_function` terminates. -/
inductive RetryResult (α : Type) where
  | ok (v : α)
  | raised (e : PyExc)
  | returnedNone
  deriving DecidableEq

/-- Observable trace of one call through `retry_function`: the final result,
how many times the wrapped operation was invoked, how many tokens were
consumed, and how many inter-attempt sleeps happened. -/
structure RetryTrace (α : Type) where
  result : RetryResult α
  attempts : Nat
  tokens : Nat
  sleeps : Nat
  deriving DecidableEq

/-- The exception classes `retry_function` re-raises without retrying:
`RateLimitExceededError`, and `HTTPError` with code 420. -/
def isRateLimitClass : PyExc → Bool
  | PyExc.rateLimitExceeded _ => true
  | PyExc.httpError code _ => code == 420
  | PyExc.other _ => false

/-- An outcome that raises an exception `retry_function` treats as transient. -/
def isTransientRaise {α : Type} : Outcome α → Bool
  | Outcome.raise (PyExc.httpError code _) => !(code == 420)
  | Outcome.raise (PyExc.other _) => true
  | _ => false

/-- The loop of `retry_function` (client.py lines 83-109), unrolled from
iteration `retry` with `r` iterations remaining; `behavior k` is what the
wrapped operation does on attempt `k`. -/
def runRetryGo {α : Type} (retries : Int) (behavior : Nat → Outcome α) :
    Nat → Nat → RetryTrace α
  | _, 0 => ⟨RetryResult.returnedNone, 0, 0, 0⟩
  | retry, r + 1 =>
    match behavior retry with
    | Outcome.ok v => ⟨RetryResult.ok v, 1, 1, 0⟩
    | Outcome.raise (PyExc.rateLimitExceeded m) =>
        ⟨RetryResult.raised (PyExc.rateLimitExceeded m), 1, 1, 0⟩
    | Outcome.raise (PyExc.httpError code m) =>
        if code = 420 then ⟨RetryResult.raised (PyExc.httpError code m), 1, 1, 0⟩
        else if retries ≤ (retry : Int) then
          ⟨RetryResult.raised (PyExc.httpError code m), 1, 1, 0⟩
        else
          let t := runRetryGo retries behavior (retry + 1) r
          ⟨t.result, t.attempts + 1, t.tokens + 1, t.sleeps + 1⟩
    | Outcome.raise (PyExc.other m) =>
        if retries ≤ (retry : Int) then ⟨RetryResult.raised (PyExc.other m), 1, 1, 0⟩
        else
          let t := runRetryGo retries behavior (retry + 1) r
          ⟨t.result, t.attempts + 1, t.tokens + 1, t.sleeps + 1⟩

/-- `retry_function` (client.py lines 74-111): `for retry in
range(1, retries + 1)` runs `max(retries, 0)` iterations starting at 1. -/
def retry_function {α : Type} (retries : Int) (behavior : Nat → Outcome α) :
    RetryTrace α :=
  runRetryGo retries behavior 1 retries.toNat

/-! ## Cache wrapper (client.py, lines 116-141) -/

/-- `cache_comicvine` (client.py lines 116-141): when `TMPDIR` is set, wrap
the target in an `FSCache` rooted at `TMPDIR/calibre-comicvine/<cache_name>`
(the cache construction itself is the `pyfscache` collaborator, abstracted as
`fscache`); when `TMPDIR` is absent, return the target unchanged. -/
def cache_comicvine {α β : Type} (cache_name : String) (tmpdir : Option String)
    (fscache : String → (α → β) → (α → β)) (target_function : α → β) : α → β :=
  match tmpdir with
  | some temp_directory =>
      fscache (temp_directory ++ "/calibre-comicvine/" ++ cache_name) target_function
  | none => target_function

/-! ## lookup_issue_image_urls (client.py, lines 183-205) -/

/-- The `image` field of an issue: presence of each quality-tier key in the
image dict. -/
structure IssueImage where
  super_url : Option String
  medium_url : Option String
  small_url : Option String

/-- The slice of a pycomicvine issue record that `lookup_issue_image_urls`
reads: its optional `image` dict (`none` also covers a falsy/empty image). -/
structure IssueRecord where
  image : Option IssueImage

/-- The url-collection loop of `lookup_issue_image_urls` (client.py lines
191-196): walk the keys in quality order, append each present url, and stop
after the first one when `get_best_cover` is set. -/
def collectImageUrls (get_best_cover : Bool) : List (Option String) → List String
  | [] => []
  | none :: rest => collectImageUrls get_best_cover rest
  | some url :: rest =>
      if get_best_cover then [url] else url :: collectImageUrls get_best_cover rest

/-- `PyComicvineWrapper.lookup_issue_image_urls` (client.py lines 183-205),
parameterised by the issue record the catalog returns. -/
def lookup_issue_image_urls (issue : Option IssueRecord) (get_best_cover : Bool) :
    List String :=
  match issue with
  | none => []
  | some i =>
    match i.image with
    | none => []
    | some img =>
        collectImageUrls get_best_cover [img.super_url, img.medium_url, img.small_url]

/-! ## Ranking functions

The repository's tests (`test_ranking.py`) exercise a `ranking` module whose
source file is not part of the snapshot; the two scoring functions below are
therefore modelled from the spec and checked against the literal test
vectors of `test_ranking.py`. -/

/-- Does the character list `needle` sit at the front of the second list? -/
def leadsWith : List Char → List Char → Bool
  | _, [] => true
  | [], _ :: _ => false
  | c :: cs, d :: ds => c == d && leadsWith cs ds

/-- Does `needle` occur as a contiguous substring of the character list? -/
def containsSub (needle : List Char) : List Char → Bool
  | [] => needle.isEmpty
  | c :: cs => leadsWith (c :: cs) needle || containsSub needle cs

/-- Lowercase a string, character by character, as a character list. -/
def lowerChars (s : String) : List Char :=
  s.toList.map Char.toLower

/-- Strip leading and trailing whitespace from a character list. -/
def trimChars (cs : List Char) : List Char :=
  ((cs.dropWhile Char.isWhitespace).reverse.dropWhile Char.isWhitespace).reverse

/-- Modelled from the spec: `ranking.score_title_tokens` (the `ranking`
module's source file is absent from the snapshot; only `test_ranking.py` is
present).  Per the spec: for each token, if the lowercased token is not a
substring of the lowercased, whitespace-trimmed title, add 10; no tokens
gives 0. -/
def score_title_tokens (title : String) : List String → Nat
  | [] => 0
  | tok :: rest =>
      (if containsSub (lowerChars tok) (trimChars (lowerChars title)) then 0 else 10) +
        score_title_tokens title rest

/-- Modelled from the spec: the year parser used by
`ranking.score_publish_date` (the `ranking` module's source file is absent
from the snapshot).  It extracts the first parenthesized 4-digit year from
the title text, if any. -/
def parseYear : List Char → Option Int
  | [] => none
  | '(' :: rest =>
      match rest with
      | a :: b :: c :: d :: ')' :: _ =>
          if a.isDigit && b.isDigit && c.isDigit && d.isDigit then
            some (((a.toNat - 48) * 1000 + (b.toNat - 48) * 100 +
              (c.toNat - 48) * 10 + (d.toNat - 48) : Nat) : Int)
          else parseYear rest
      | _ => parseYear rest
  | _ :: rest => parseYear rest

/-- Modelled from the spec: `ranking.score_publish_date` (the `ranking`
module's source file is absent from the snapshot).  The known publish date
is abstracted to its year.  Missing known date gives 10; known date but no
parseable title year gives 0; both present give the absolute year
distance. -/
def score_publish_date (title : String) (pubdate : Option Int) : Int :=
  match pubdate with
  | none => 10
  | some y =>
    match parseYear title.toList with
    | none => 0
    | some titleYear => |titleYear - y|

/-! ## Helper lemmas -/

theorem collectImageUrls_false_eq (l : List (Option String)) :
    collectImageUrls false l = l.filterMap id := by
  induction l with
  | nil => rfl
  | cons head tail ih => cases head <;> simp [collectImageUrls, ih]

theorem collectImageUrls_true_take (l : List (Option String)) :
    collectImageUrls true l = (collectImageUrls false l).take 1 := by
  induction l with
  | nil => rfl
  | cons head tail ih => cases head <;> simp [collectImageUrls, ih]

theorem pyInt_nonneg (q : ℚ) (h : 0 ≤ q) : 0 ≤ pyInt q := by
  unfold pyInt
  rw [if_neg (not_lt.mpr h)]
  exact Int.floor_nonneg.mpr h

theorem tokensRead_mono (batch : Int) (interval : ℚ) (hi : 0 < interval)
    (s : BucketState) (now : ℚ) :
    s.tokens ≤ (tokensRead batch interval s now).tokens := by
  have hinv : (0 : ℚ) ≤ 1 / interval := le_of_lt (by positivity)
  dsimp only [tokensRead]
  split_ifs with hb he hz hcap
  · have hnn := pyInt_nonneg ((now - s.update) * (1 / interval))
      (mul_nonneg (le_of_lt he) hinv)
    dsimp only
    omega
  · exact le_of_lt hb
  · exact le_refl _
  · exact le_refl _
  · exact le_refl _

theorem tokensRead_le_batch (batch : Int) (interval : ℚ)
    (s : BucketState) (now : ℚ) (hs : s.tokens ≤ batch) :
    (tokensRead batch interval s now).tokens ≤ batch := by
  dsimp only [tokensRead]
  split_ifs with hb he hz hcap
  · dsimp only
    omega
  · exact le_refl _
  · exact hs
  · exact hs
  · exact hs

theorem runRetryGo_attempts_pos {α : Type} (retries : Int) (behavior : Nat → Outcome α)
    (retry r : Nat) (hr : 1 ≤ r) :
    1 ≤ (runRetryGo retries behavior retry r).attempts := by
  match r, hr with
  | r + 1, _ =>
    rcases hb : behavior retry with v | e
    · simp [runRetryGo, hb]
    · rcases e with m | ⟨code, m⟩ | m
      · simp [runRetryGo, hb]
      · simp only [runRetryGo, hb]
        split
        · simp
        · split <;> simp
      · simp only [runRetryGo, hb]
        split <;> simp

theorem runRetryGo_transient {α : Type} (N : Nat) (behavior : Nat → Outcome α) :
    ∀ r retry, 1 ≤ retry → retry + r = N + 1 → 1 ≤ r →
      (∀ k, retry ≤ k → k ≤ N → isTransientRaise (behavior k) = true) →
      ∃ e, behavior N = Outcome.raise e ∧
        runRetryGo (N : Int) behavior retry r = ⟨RetryResult.raised e, r, r, r - 1⟩ := by
  intro r
  induction r with
  | zero => intro retry _ _ h0; omega
  | succ r ih =>
    intro retry h1 hsum _ htr
    rcases Nat.eq_zero_or_pos r with hr0 | hrpos
    · subst hr0
      have hretry : retry = N := by omega
      rw [hretry]
      have ht := htr N (le_of_eq hretry) (le_refl N)
      rcases hb : behavior N with v | e
      · rw [hb] at ht
        simp [isTransientRaise] at ht
      · rcases e with m | ⟨code, m⟩ | m
        · rw [hb] at ht
          simp [isTransientRaise] at ht
        · have hcode : ¬ code = 420 := by
            rw [hb] at ht
            simpa [isTransientRaise] using ht
          refine ⟨PyExc.httpError code m, rfl, ?_⟩
          simp [runRetryGo, hb, hcode]
        · refine ⟨PyExc.other m, rfl, ?_⟩
          simp [runRetryGo, hb]
    · have hlt : retry < N := by omega
      have hle : ¬ ((N : Int) ≤ (retry : Int)) := by
        omega
      have ht := htr retry (le_refl retry) (by omega)
      obtain ⟨e, heN, hrec⟩ :=
        ih (retry + 1) (by omega) (by omega) hrpos
          (fun k hk1 hk2 => htr k (by omega) hk2)
      rcases hb : behavior retry with v | e'
      · rw [hb] at ht
        simp [isTransientRaise] at ht
      · rcases e' with m | ⟨code, m⟩ | m
        · rw [hb] at ht
          simp [isTransientRaise] at ht
        · have hcode : ¬ code = 420 := by
            rw [hb] at ht
            simpa [isTransientRaise] using ht
          refine ⟨e, heN, ?_⟩
          simp [runRetryGo, hb, hcode, hle, hrec]
          omega
        · refine ⟨e, heN, ?_⟩
          simp [runRetryGo, hb, hle, hrec]
          omega

/-! ## Claim theorems -/

/-- C2: for every configured retries value of at least 1, a rate-limit-class
error (`RateLimitExceededError`, or `HTTPError` with the rate-limit status
code) raised on attempt 1 makes `retry_function` perform exactly one attempt
in total, consuming one token, sleeping no inter-attempt delay, and
re-raising that same exception immediately. -/
theorem retry_rate_limit_single_attempt {α : Type} (retries : Int)
    (behavior : Nat → Outcome α) (e : PyExc)
    (hr : 1 ≤ retries) (hb : behavior 1 = Outcome.raise e)
    (hrl : isRateLimitClass e = true) :
    retry_function retries behavior = ⟨RetryResult.raised e, 1, 1, 0⟩ := by
  obtain ⟨n, hn⟩ : ∃ n, retries.toNat = n + 1 := ⟨retries.toNat - 1, by omega⟩
  rw [retry_function, hn]
  rcases e with m | ⟨code, m⟩ | m
  · simp [runRetryGo, hb]
  · have hcode : code = 420 := by simpa [isRateLimitClass] using hrl
    simp [runRetryGo, hb, hcode]
  · simp [isRateLimitClass] at hrl

/-- C2 witness: a quota-exceeded error on attempt 1 with 3 configured
retries yields one attempt, one token, no sleep, and the same exception. -/
theorem retry_rate_limit_single_attempt_witness :
    retry_function 3
        ((fun _ => Outcome.raise (PyExc.rateLimitExceeded "quota")) : Nat → Outcome Nat) =
      ⟨RetryResult.raised (PyExc.rateLimitExceeded "quota"), 1, 1, 0⟩ :=
  retry_rate_limit_single_attempt 3 _ _ (by decide) rfl (by decide)

/-- C3: when every attempt raises a non-rate-limit exception,
`retry_function` with N >= 1 configured retries performs exactly N attempts,
consumes exactly one token before each attempt (N tokens), sleeps exactly
N - 1 jittered delays between attempts, and re-raises the final attempt's
exception with type and message unchanged. -/
theorem retry_transient_exhausts_attempts {α : Type} (N : Nat)
    (behavior : Nat → Outcome α) (hN : 1 ≤ N)
    (htr : ∀ k, 1 ≤ k → k ≤ N → isTransientRaise (behavior k) = true) :
    ∃ e, behavior N = Outcome.raise e ∧
      retry_function (N : Int) behavior = ⟨RetryResult.raised e, N, N, N - 1⟩ := by
  have h := runRetryGo_transient N behavior N 1 (le_refl 1) (by omega) hN htr
  rw [retry_function, Int.toNat_natCast]
  exact h

/-- C3 witness: an operation that raises a generic exception on every
attempt, under 3 configured retries, is attempted exactly 3 times with 3
tokens and 2 sleeps, and the exception surfaces unchanged. -/
theorem retry_transient_exhausts_attempts_witness :
    ∃ e, ((fun _ => Outcome.raise (PyExc.other "boom")) : Nat → Outcome Nat) 3 =
        Outcome.raise e ∧
      retry_function ((3 : Nat) : Int)
          ((fun _ => Outcome.raise (PyExc.other "boom")) : Nat → Outcome Nat) =
        ⟨RetryResult.raised e, 3, 3, 3 - 1⟩ :=
  retry_transient_exhausts_attempts 3
    ((fun _ => Outcome.raise (PyExc.other "boom")) : Nat → Outcome Nat)
    (by decide) (fun _ _ _ => rfl)

/-- C9: an `HTTPError` raised on attempt 1 short-circuits `retry_function`
(exactly one attempt) precisely when its status code is 420; any other code,
including 429, leads to a further attempt. -/
theorem http_420_is_rate_limit {α : Type} (N : Nat) (behavior : Nat → Outcome α)
    (code : Nat) (msg : String) (hN : 2 ≤ N)
    (hb : behavior 1 = Outcome.raise (PyExc.httpError code msg)) :
    ((retry_function (N : Int) behavior).attempts = 1 ↔ code = 420) ∧
    (code = 420 → retry_function (N : Int) behavior =
      ⟨RetryResult.raised (PyExc.httpError code msg), 1, 1, 0⟩) := by
  obtain ⟨n, hn⟩ : ∃ n, N = n + 2 := ⟨N - 2, by omega⟩
  subst hn
  by_cases hc : code = 420
  · have htr : retry_function ((n + 2 : Nat) : Int) behavior =
        ⟨RetryResult.raised (PyExc.httpError code msg), 1, 1, 0⟩ := by
      rw [retry_function, Int.toNat_natCast]
      simp [runRetryGo, hb, hc]
    rw [htr]
    exact ⟨⟨fun _ => hc, fun _ => rfl⟩, fun _ => rfl⟩
  · have hle : ¬ (((n + 2 : Nat) : Int) ≤ ((1 : Nat) : Int)) := by
      push_cast
      omega
    have hatt : (retry_function ((n + 2 : Nat) : Int) behavior).attempts =
        (runRetryGo ((n + 2 : Nat) : Int) behavior 2 (n + 1)).attempts + 1 := by
      rw [retry_function, Int.toNat_natCast]
      simp only [runRetryGo, hb]
      rw [if_neg hc, if_neg hle]
    have hpos := runRetryGo_attempts_pos ((n + 2 : Nat) : Int) behavior 2 (n + 1) (by omega)
    refine ⟨⟨fun hone => ?_, fun h420 => absurd h420 hc⟩, fun h420 => absurd h420 hc⟩
    rw [hatt] at hone
    omega

/-- C9 witness: with 2 configured retries, an `HTTPError` 429 on attempt 1
does not short-circuit, while 420 does. -/
theorem http_420_is_rate_limit_witness :
    (((retry_function ((2 : Nat) : Int)
        ((fun _ => Outcome.raise (PyExc.httpError 429 "too many")) : Nat → Outcome Nat)).attempts
          = 1 ↔ (429 : Nat) = 420) ∧
      ((429 : Nat) = 420 →
        retry_function ((2 : Nat) : Int)
            ((fun _ => Outcome.raise (PyExc.httpError 429 "too many")) : Nat → Outcome Nat) =
          ⟨RetryResult.raised (PyExc.httpError 429 "too many"), 1, 1, 0⟩)) :=
  http_420_is_rate_limit 2 _ 429 "too many" (by decide) rfl

/-- C10: with a configured retries value of 0 or below, `retry_function`
performs zero attempts: the wrapped operation is never invoked, no token is
consumed, no exception is raised, and the call returns Python `None`. -/
theorem retry_zero_retries_none {α : Type} (retries : Int)
    (behavior : Nat → Outcome α) (h : retries ≤ 0) :
    retry_function retries behavior = ⟨RetryResult.returnedNone, 0, 0, 0⟩ := by
  rw [retry_function, Int.toNat_of_nonpos h]
  rfl

/-- C10 witness: zero configured retries yield zero attempts, zero tokens,
and a `None` result. -/
theorem retry_zero_retries_none_witness :
    retry_function (0 : Int) ((fun _ => Outcome.ok 0) : Nat → Outcome Nat) =
      ⟨RetryResult.returnedNone, 0, 0, 0⟩ :=
  retry_zero_retries_none 0 _ (by decide)

/-- C7: `lookup_issue_image_urls` returns the available image URLs ordered
from highest to lowest quality tier (super, then medium, then small); with
`get_best_cover` it returns at most the single best available URL (the take-1
prefix of the full list); and it returns an empty list, never an error, when
the issue or its image is absent. -/
theorem lookup_issue_image_urls_spec :
    (∀ img : IssueImage,
      lookup_issue_image_urls (some ⟨some img⟩) false =
        [img.super_url, img.medium_url, img.small_url].filterMap id) ∧
    (∀ issue : Option IssueRecord,
      lookup_issue_image_urls issue true = (lookup_issue_image_urls issue false).take 1) ∧
    (∀ issue : Option IssueRecord, (lookup_issue_image_urls issue true).length ≤ 1) ∧
    (∀ b : Bool, lookup_issue_image_urls none b = []) ∧
    (∀ b : Bool, lookup_issue_image_urls (some ⟨none⟩) b = []) := by
  have htake : ∀ issue : Option IssueRecord,
      lookup_issue_image_urls issue true = (lookup_issue_image_urls issue false).take 1 := by
    intro issue
    rcases issue with _ | ⟨img⟩
    · rfl
    · rcases img with _ | img
      · rfl
      · simp [lookup_issue_image_urls, collectImageUrls_true_take]
  refine ⟨?_, htake, ?_, fun _ => rfl, fun _ => rfl⟩
  · intro img
    simp [lookup_issue_image_urls, collectImageUrls_false_eq]
  · intro issue
    rw [htake issue]
    simp [List.length_take]

/-- C8: when the TMPDIR environment value is absent, `cache_comicvine`
returns the wrapped (rate-limited, retried) operation itself, so every call
passes straight through and returns exactly what that operation returns; no
cache machinery is constructed, so storage unavailability cannot surface to
the caller. -/
theorem cache_passthrough_when_no_tmpdir {α β : Type} (cache_name : String)
    (fscache : String → (α → β) → (α → β)) (target_function : α → β) :
    cache_comicvine cache_name none fscache target_function = target_function ∧
    ∀ a : α, cache_comicvine cache_name none fscache target_function a = target_function a :=
  ⟨rfl, fun _ => rfl⟩

/-- C4 counterexample: at `interval = 10` and `time_since_last_request = 4`
the delay computed by `TokenBucket.consume` is `6`, whereas the claimed
formula `max(interval - time_since_last_request, interval)` gives `10`. -/
theorem consume_delay_not_max :
    consumeDelay 10 4 ≠ max (10 - 4 : ℚ) 10 := by
  norm_num [consumeDelay]

/-- C4 (amended): the delay slept by `TokenBucket.consume` equals
`interval - time_since_last_request` when `time_since_last_request <
interval`, and `interval` otherwise; and once at least one token is
available the committing step decrements the persisted count by exactly
one. -/
theorem consume_delay_formula (interval t : ℚ) :
    consumeDelay interval t = (if t < interval then interval - t else interval) ∧
    ∀ (batch : Int) (s : BucketState) (now : ℚ),
      (consumeCommit batch interval s now).tokens =
        (tokensRead batch interval s now).tokens - 1 :=
  ⟨rfl, fun _ _ _ => rfl⟩

/-- C5: `score_title_tokens` returns 10 times the number of tokens whose
lowercased text is not a substring of the lowercased, whitespace-trimmed
title, and matches the four test vectors of `test_ranking.py`. -/
theorem score_title_tokens_spec :
    (∀ (title : String) (tokens : List String),
      score_title_tokens title tokens =
        10 * tokens.countP
          (fun tok => !containsSub (lowerChars tok) (trimChars (lowerChars title)))) ∧
    score_title_tokens "Dogville" [] = 0 ∧
    score_title_tokens "Dogville" ["awakening"] = 10 ∧
    score_title_tokens "Dogville" ["dogville", "awakening", "by", "cats"] = 30 ∧
    score_title_tokens "  Dogville  " ["dogville"] = 0 := by
  refine ⟨?_, by decide, by decide, by decide, by decide⟩
  intro title tokens
  induction tokens with
  | nil => rfl
  | cons tok rest ih =>
    by_cases h : containsSub (lowerChars tok) (trimChars (lowerChars title)) = true
    · simp [score_title_tokens, List.countP_cons, h, ih]
    · simp only [score_title_tokens, List.countP_cons, ih,
        Bool.not_eq_true] at *
      simp [h]
      omega

/-- C6: `score_publish_date` returns 10 whenever the known date is absent
(regardless of a year in the title), 0 when a known date is present but no
parenthesized 4-digit year parses from the title, and the absolute year
distance when both are present; it matches the test vectors of
`test_ranking.py`. -/
theorem score_publish_date_spec :
    (∀ title : String, score_publish_date title none = 10) ∧
    (∀ (title : String) (y : Int), parseYear title.toList = none →
      score_publish_date title (some y) = 0) ∧
    (∀ (title : String) (y ty : Int), parseYear title.toList = some ty →
      score_publish_date title (some y) = |ty - y|) ∧
    score_publish_date "Dogville #2 (2000)" (some 1984) = 16 ∧
    score_publish_date "Dogville #2 (2000)" (some 2000) = 0 ∧
    score_publish_date "Dogville #2" (some 2000) = 0 ∧
    score_publish_date "Dogville #2 (2000)" none = 10 ∧
    score_publish_date "Dogville #2" none = 10 := by
  refine ⟨fun _ => rfl, ?_, ?_, by decide, by decide, by decide, rfl, rfl⟩
  · intro title y h
    simp only [score_publish_date, String.toList] at *
    rw [h]
  · intro title y ty h
    simp only [score_publish_date, String.toList] at *
    rw [h]

/-- C1: starting from a persisted token count in `[0, batch]`, any
interleaving of `tokens` reads and successful `consume()` calls keeps the
persisted count in `[0, batch]`: reads (lazy minting) never push it above
the batch size and never decrease it, and `consume` is the only decreasing
transition (by exactly the one token it takes, already below the cap). -/
theorem tokenBucket_invariant (batch : Int) (interval : ℚ) (hi : 0 < interval)
    (s s' : BucketState) (h0 : 0 ≤ s.tokens) (hb : s.tokens ≤ batch)
    (hsteps : Relation.ReflTransGen (BucketStep batch interval) s s') :
    (0 ≤ s'.tokens ∧ s'.tokens ≤ batch) ∧
    (∀ (t : BucketState) (now : ℚ), t.tokens ≤ (tokensRead batch interval t now).tokens) := by
  refine ⟨?_, fun t now => tokensRead_mono batch interval hi t now⟩
  induction hsteps with
  | refl => exact ⟨h0, hb⟩
  | @tail b c hab hstep ih =>
    cases hstep with
    | read now =>
      exact ⟨le_trans ih.1 (tokensRead_mono batch interval hi b now),
        tokensRead_le_batch batch interval b now ih.2⟩
    | consume now hav =>
      have hub := tokensRead_le_batch batch interval b now ih.2
      constructor
      · dsimp only [consumeCommit]
        omega
      · dsimp only [consumeCommit]
        omega

/-- C1 witness: the invariant hypotheses hold at a concrete state and the
minting read does not decrease a concrete full bucket. -/
theorem tokenBucket_invariant_witness :
    (0 ≤ (⟨2, 0⟩ : BucketState).tokens ∧ (⟨2, 0⟩ : BucketState).tokens ≤ 5) ∧
    (⟨5, 0⟩ : BucketState).tokens ≤ (tokensRead 5 1 ⟨5, 0⟩ 3).tokens := by
  have h := tokenBucket_invariant 5 1 (by norm_num) ⟨2, 0⟩ ⟨2, 0⟩ (by decide) (by decide)
    Relation.ReflTransGen.refl
  exact ⟨h.1, h.2 ⟨5, 0⟩ 3⟩

/-- C6 witness: the hypotheses of `score_publish_date_spec` hold at concrete
inputs. -/
theorem score_publish_date_spec_witness :
    score_publish_date "Dogville" (some 3) = 0 ∧
    score_publish_date "(1999)" (some 2001) = |(1999 : Int) - 2001| :=
  ⟨score_publish_date_spec.2.1 "Dogville" 3 (by decide),
   score_publish_date_spec.2.2.1 "(1999)" 2001 1999 (by decide)⟩

end Comicvine
